import Mathlib

/-!
Verification of the booking-change detection and history-persistence module
of `cobot-cli` (`src/cobot_cli/history.py`), shallowly embedded in Lean 4.

Modelling decisions:
* A booking record arriving from the API is an opaque JSON object; the code
  only ever reads `record["id"]`, `record["attributes"]["id"]` and
  `record["attributes"]["to"]`.  We model the identifier fields as
  `Option String` (`none` = key absent) and the `attributes.to` field as an
  `Option Int` holding the *parsed* end instant (`none` = key absent), since
  `dateutil.parser.parse` turns the ISO-8601 string into a timezone-aware
  instant and the code only compares it with the current UTC instant.
  Instants are integers (e.g. seconds since the epoch); only their order
  matters.  An `extra` field carries the rest of the record's payload so
  that two records with equal identifiers stay distinguishable.
* Python's `a or b` on optional strings falls through on falsy values:
  `None` and `""` both select `b`.  `pyOr` models this.
* A Python `set` of optional strings has the same membership as a Lean list
  under `DecidableEq`; we build the identifier collection as a `List` and
  test membership with `∈`.
* `find_cancelled_bookings` raises `KeyError` when a tested record lacks
  `attributes` or `attributes["to"]`; we model the raising function with an
  `Option` result (`none` = the whole call raised).
-/

namespace Cobot

/-- The `attributes` sub-object of a booking record: the optional
`attributes["id"]` string and the optional parsed end instant
`attributes["to"]` (see module comment). -/
structure Attrs where
  attrId : Option String := none
  toTime : Option Int := none
  deriving Repr, DecidableEq

/-- A booking record: optional top-level `id`, optional `attributes`
object, and an opaque remainder of the payload. -/
structure Booking where
  id : Option String := none
  attrs : Option Attrs := none
  extra : String := ""
  deriving Repr, DecidableEq

/-- Python truthiness of an optional string: `None` and `""` are falsy. -/
def pyTruthy (o : Option String) : Bool :=
  match o with
  | none => false
  | some s => s ≠ ""

/-- Python `a or b` on optional strings. -/
def pyOr (a b : Option String) : Option String :=
  if pyTruthy a then a else b

/-- `b.get("id") or b.get("attributes", {}).get("id")` — the identity key
used by both diff operations. -/
def identityKey (b : Booking) : Option String :=
  pyOr b.id (match b.attrs with
             | none => none
             | some a => a.attrId)

/-- `booking["attributes"]["to"]` after parsing: `none` when either key is
absent (a `KeyError` in the source). -/
def endTimeOf (b : Booking) : Option Int :=
  match b.attrs with
  | none => none
  | some a => a.toTime

/-- The loop body of `find_cancelled_bookings`: walks `previous` carrying
the accumulator `acc` (the `cancelled` list), returning `none` when the
source would raise `KeyError` on `booking["attributes"]["to"]`. -/
def cancelledLoop (currentIds : List (Option String)) (now : Int)
    (acc : List Booking) : List Booking → Option (List Booking)
  | [] => some acc
  | b :: rest =>
    if identityKey b ∈ currentIds then
      cancelledLoop currentIds now acc rest
    else
      match b.attrs with
      | none => none
      | some a =>
        match a.toTime with
        | none => none
        | some t =>
          if t > now then cancelledLoop currentIds now (acc ++ [b]) rest
          else cancelledLoop currentIds now acc rest

/-- `find_cancelled_bookings(current, previous)` with the evaluation
instant `datetime.now(tzutc())` made an explicit argument `now`.
`none` models an uncaught `KeyError`. -/
def find_cancelled_bookings (current previous : List Booking) (now : Int) :
    Option (List Booking) :=
  cancelledLoop (current.map identityKey) now [] previous

/-- The loop body of `find_new_bookings`: walks `current` carrying the
accumulator `acc` (the `new_bookings` list). -/
def newLoop (previousIds : List (Option String))
    (acc : List Booking) : List Booking → List Booking
  | [] => acc
  | b :: rest =>
    if identityKey b ∈ previousIds then newLoop previousIds acc rest
    else newLoop previousIds (acc ++ [b]) rest

/-- `find_new_bookings(current, previous)`. -/
def find_new_bookings (current previous : List Booking) : List Booking :=
  newLoop (previous.map identityKey) [] current

/-!
Snapshot store (`save_bookings` / `get_last_bookings`).

A history file is a sequence of lines.  `save_bookings` only ever appends
`json.dumps(entry) + "\n"` where `entry` is a dict with the four keys
`timestamp`, `space_id`, `resource_id`, `bookings`; such a line is nonempty
after `strip()`, parses back under `json.loads`, and has a `"bookings"`
key.  Lines written by other agents may be blank, may fail `json.loads`
(truncated or corrupt JSON — `JSONDecodeError`), or may parse to an object
without a `"bookings"` key (`KeyError`).  We model a line abstractly by
which of these classes it falls in, keeping the decoded entry for valid
lines; this abstracts the JSON encoding, whose round-trip on these entries
is the identity.

The filesystem is modelled as a map from `resource_id` to the optional
line list of `data_dir/bookings_{resource_id}.jsonl` (`none` = the file
does not exist); with `data_dir` fixed the file name is determined by the
resource id, so the map is keyed by the id directly.
-/

/-- One decoded history entry, as built by `save_bookings`. -/
structure Entry where
  timestamp : String
  space_id : String
  resource_id : String
  bookings : List Booking
  deriving Repr, DecidableEq

/-- One physical line of a history file (see the section comment). -/
inductive Line where
  /-- A line that strips nonempty, parses under `json.loads` to an object
  with a `"bookings"` key: exactly what `save_bookings` writes. -/
  | valid (e : Entry) : Line
  /-- A line that is empty after `strip()`. -/
  | blank : Line
  /-- A nonempty line on which `json.loads` raises `JSONDecodeError`
  (truncated write, corrupt JSON). -/
  | corruptJson : Line
  /-- A nonempty line parsing to an object without a `"bookings"` key,
  so `entry["bookings"]` raises `KeyError`. -/
  | noBookings : Line
  deriving Repr, DecidableEq

/-- The on-disk state: for each resource id, the lines of its history file,
or `none` when the file does not exist. -/
def Store : Type := String → Option (List Line)

/-- `save_bookings(bookings, resource_id)`: appends one valid entry line to
the resource's history file, creating it if absent.  The capture timestamp
and the configured `space_id` are explicit arguments. -/
def save_bookings (bookings : List Booking) (resource_id : String)
    (timestamp space_id : String) (store : Store) : Store :=
  fun rid =>
    if rid = resource_id then
      some ((store resource_id).getD [] ++
        [Line.valid ⟨timestamp, space_id, resource_id, bookings⟩])
    else store rid

/-- The uncaught exception `get_last_bookings` can raise. -/
inductive PyErr where
  /-- `NameError`: `last_entry` referenced before assignment (the file
  exists but has zero lines, so the `for` loop body never runs). -/
  | nameError : PyErr
  deriving Repr, DecidableEq

/-- `get_last_bookings(resource_id)`.  `Except.ok none` is Python's
`return None` ("absent"); `Except.error` is an uncaught exception. -/
def get_last_bookings (resource_id : String) (store : Store) :
    Except PyErr (Option (List Booking)) :=
  match store resource_id with
  | none => .ok none
  | some lines =>
    match lines.getLast? with
    | none => .error .nameError
    | some (.blank) => .ok none
    | some (.corruptJson) => .ok none
    | some (.noBookings) => .ok none
    | some (.valid e) => .ok (some e.bookings)

/-!
Spec-side characterizations: the predicates the specification describes,
stated independently of the loop-with-accumulator code shape.
-/

/-- The specification's membership test for `cancelled`: identity absent
from the current identity collection and parsed end time strictly later
than the evaluation instant. -/
def cancelledPred (currentIds : List (Option String)) (now : Int)
    (b : Booking) : Bool :=
  decide (identityKey b ∉ currentIds) &&
    (match endTimeOf b with
     | some t => decide (now < t)
     | none => false)

/-- The specification's membership test for `new`: identity absent from
the previous identity collection. -/
def newPred (previousIds : List (Option String)) (b : Booking) : Bool :=
  decide (identityKey b ∉ previousIds)

/-- A single `append` request: what the poll orchestrator hands to
`save_bookings` (the bookings plus the capture timestamp and space id the
source reads from the clock and the settings). -/
structure AppendReq where
  bookings : List Booking
  timestamp : String
  space_id : String
  deriving Repr, DecidableEq

/-- The line `save_bookings` writes for one request. -/
def lineOf (rid : String) (r : AppendReq) : Line :=
  .valid ⟨r.timestamp, r.space_id, rid, r.bookings⟩

/-- Run a sequence of `save_bookings` calls against one resource id. -/
def applyAppends (rid : String) (store : Store) : List AppendReq → Store
  | [] => store
  | r :: rest =>
    applyAppends rid (save_bookings r.bookings rid r.timestamp r.space_id store) rest

/-! ### Helper lemmas -/

theorem newLoop_eq_filter (pids : List (Option String)) :
    ∀ (cur acc : List Booking),
      newLoop pids acc cur = acc ++ cur.filter (newPred pids)
  | [], acc => by simp [newLoop]
  | b :: rest, acc => by
    by_cases h : identityKey b ∈ pids
    · simp [newLoop, h, newPred, newLoop_eq_filter pids rest acc]
    · simp [newLoop, h, newPred, newLoop_eq_filter pids rest (acc ++ [b])]

theorem find_new_eq_filter (current previous : List Booking) :
    find_new_bookings current previous =
      current.filter (newPred (previous.map identityKey)) := by
  simp [find_new_bookings, newLoop_eq_filter]

theorem cancelledLoop_eq_filter (cids : List (Option String)) (now : Int) :
    ∀ (prev acc : List Booking),
      (∀ b ∈ prev, identityKey b ∉ cids → (endTimeOf b).isSome) →
      cancelledLoop cids now acc prev =
        some (acc ++ prev.filter (cancelledPred cids now))
  | [], acc, _ => by simp [cancelledLoop]
  | b :: rest, acc, h => by
    have hrest : ∀ x ∈ rest, identityKey x ∉ cids → (endTimeOf x).isSome :=
      fun x hx => h x (List.mem_cons_of_mem _ hx)
    by_cases hid : identityKey b ∈ cids
    · have hpred : cancelledPred cids now b = false := by
        simp [cancelledPred, hid]
      simp [cancelledLoop, hid, List.filter_cons, hpred,
        cancelledLoop_eq_filter cids now rest acc hrest]
    · have hsome := h b (List.mem_cons_self b rest) hid
      rcases hattrs : b.attrs with _ | a
      · exfalso; simp [endTimeOf, hattrs] at hsome
      · rcases hto : a.toTime with _ | t
        · exfalso; simp [endTimeOf, hattrs, hto] at hsome
        · by_cases ht : t > now
          · have hpred : cancelledPred cids now b = true := by
              simp [cancelledPred, hid, endTimeOf, hattrs, hto]
              exact ht
            simp [cancelledLoop, hid, hattrs, hto, ht, List.filter_cons, hpred,
              cancelledLoop_eq_filter cids now rest (acc ++ [b]) hrest]
          · have hpred : cancelledPred cids now b = false := by
              simp [cancelledPred, hid, endTimeOf, hattrs, hto]
              omega
            simp [cancelledLoop, hid, hattrs, hto, ht, List.filter_cons, hpred,
              cancelledLoop_eq_filter cids now rest acc hrest]

theorem cancelledLoop_none_of_missing (cids : List (Option String)) (now : Int) :
    ∀ (prev acc : List Booking) (b : Booking), b ∈ prev →
      identityKey b ∉ cids → endTimeOf b = none →
      cancelledLoop cids now acc prev = none
  | [], _, b, hb, _, _ => absurd hb (List.not_mem_nil b)
  | p :: rest, acc, b, hb, hid, hto => by
    rcases List.mem_cons.mp hb with rfl | hbrest
    · rcases hattrs : b.attrs with _ | a
      · simp [cancelledLoop, hid, hattrs]
      · rcases hto' : a.toTime with _ | t
        · simp [cancelledLoop, hid, hattrs, hto']
        · exfalso
          simp [endTimeOf, hattrs, hto'] at hto
    · by_cases hpid : identityKey p ∈ cids
      · simp only [cancelledLoop, hpid, if_pos]
        exact cancelledLoop_none_of_missing cids now rest acc b hbrest hid hto
      · rcases hattrs : p.attrs with _ | a
        · simp [cancelledLoop, hpid, hattrs]
        · rcases hto' : a.toTime with _ | t
          · simp [cancelledLoop, hpid, hattrs, hto']
          · by_cases ht : t > now
            · simp only [cancelledLoop, hpid, if_neg, hattrs, hto', ht, if_pos,
                not_false_iff]
              exact cancelledLoop_none_of_missing cids now rest (acc ++ [p]) b hbrest hid hto
            · simp only [cancelledLoop, hpid, if_neg, hattrs, hto', ht, if_pos,
                not_false_iff]
              exact cancelledLoop_none_of_missing cids now rest acc b hbrest hid hto

theorem cancelledLoop_skip_all (cids : List (Option String)) (now : Int) :
    ∀ (prev acc : List Booking),
      (∀ b ∈ prev, identityKey b ∈ cids) →
      cancelledLoop cids now acc prev = some acc
  | [], _, _ => rfl
  | b :: rest, acc, h => by
    have hb : identityKey b ∈ cids := h b (List.mem_cons_self b rest)
    simp only [cancelledLoop, hb, if_pos]
    exact cancelledLoop_skip_all cids now rest acc
      (fun x hx => h x (List.mem_cons_of_mem _ hx))

theorem cancelledLoop_mem (cids : List (Option String)) (now : Int) :
    ∀ (prev acc res : List Booking),
      cancelledLoop cids now acc prev = some res →
      ∀ x ∈ res, x ∈ acc ∨ identityKey x ∉ cids
  | [], acc, res, heq, x, hx => by
    simp only [cancelledLoop, Option.some.injEq] at heq
    exact Or.inl (heq ▸ hx)
  | b :: rest, acc, res, heq, x, hx => by
    by_cases hid : identityKey b ∈ cids
    · simp only [cancelledLoop, hid, if_pos] at heq
      exact cancelledLoop_mem cids now rest acc res heq x hx
    · rcases hattrs : b.attrs with _ | a
      · rw [cancelledLoop] at heq
        simp [hid, hattrs] at heq
      · rcases hto : a.toTime with _ | t
        · rw [cancelledLoop] at heq
          simp [hid, hattrs, hto] at heq
        · by_cases ht : t > now
          · rw [cancelledLoop] at heq
            simp only [hid, if_neg, hattrs, hto, ht, if_pos, not_false_iff] at heq
            rcases cancelledLoop_mem cids now rest (acc ++ [b]) res heq x hx with hacc | hout
            · rcases List.mem_append.mp hacc with h1 | h2
              · exact Or.inl h1
              · have : x = b := List.mem_singleton.mp h2
                exact Or.inr (this ▸ hid)
            · exact Or.inr hout
          · rw [cancelledLoop] at heq
            simp only [hid, if_neg, hattrs, hto, ht, if_pos, not_false_iff] at heq
            exact cancelledLoop_mem cids now rest acc res heq x hx

theorem getLast_map_opt {α β : Type} (f : α → β) :
    ∀ (l : List α), (l.map f).getLast? = (l.getLast?).map f
  | [] => rfl
  | [_] => rfl
  | a :: b :: t => by
    have ih := getLast_map_opt f (b :: t)
    simp only [List.map_cons] at ih ⊢
    rw [List.getLast?_cons_cons, List.getLast?_cons_cons]
    exact ih

theorem applyAppends_apply (rid : String) :
    ∀ (reqs : List AppendReq) (store : Store) (init : List Line),
      store rid = some init →
      applyAppends rid store reqs rid = some (init ++ reqs.map (lineOf rid))
  | [], _, _, h => by simpa [applyAppends] using h
  | r :: rest, store, init, h => by
    have hsave : save_bookings r.bookings rid r.timestamp r.space_id store rid
        = some (init ++ [lineOf rid r]) := by
      simp [save_bookings, h, lineOf]
    rw [applyAppends, applyAppends_apply rid rest _ _ hsave]
    simp

/-! ### Concrete records used by witnesses and counterexamples -/

/-- A booking with identity `"a"` ending at instant `100`. -/
def bookA : Booking :=
  { id := some "a", attrs := some { attrId := none, toTime := some 100 } }

/-- A booking with identity `"b"` ending at instant `-100`. -/
def bookB : Booking :=
  { id := some "b", attrs := some { attrId := none, toTime := some (-100) } }

/-- A booking whose `attributes` object lacks the `to` key. -/
def bookNoTo : Booking :=
  { id := some "z", attrs := some { attrId := none, toTime := none } }

/-- An id-less booking (no `id`, no `attributes.id`) in `previous`. -/
def idlessPrev : Booking :=
  { id := none, attrs := some { attrId := none, toTime := some 100 }, extra := "prev" }

/-- An id-less booking in `current`, distinct from `idlessPrev`. -/
def idlessCur : Booking :=
  { id := none, attrs := some { attrId := none, toTime := some 200 }, extra := "cur" }

/-- A store with no history file at all. -/
def emptyStore : Store := fun _ => none

def reqOne : AppendReq := { bookings := [bookA], timestamp := "t1", space_id := "s" }

def reqTwo : AppendReq := { bookings := [bookB], timestamp := "t2", space_id := "s" }

/-- A store whose file for `"r1"` ends in a corrupt-JSON line and whose
file for `"r2"` ends in a valid-JSON line without a `bookings` key. -/
def corruptStore : Store := fun rid =>
  if rid = "r1" then some [Line.valid ⟨"t", "s", "r1", [bookA]⟩, Line.corruptJson]
  else if rid = "r2" then some [Line.noBookings]
  else none

/-- A store whose file for `"r1"` exists with zero lines and whose file
for `"r2"` has a single blank line. -/
def zeroLineStore : Store := fun rid =>
  if rid = "r1" then some []
  else if rid = "r2" then some [Line.blank]
  else none

/-! ### Claims -/

/-- C1: `find_cancelled_bookings current previous now` returns exactly the
records of `previous` whose identity does not appear among the identities
of `current` and whose end time is strictly later than the evaluation
instant `now`, in the order of `previous` (stated for inputs on which the
source does not raise: every tested record has a parseable
`attributes.to`). -/
theorem find_cancelled_spec (current previous : List Booking) (now : Int)
    (h : ∀ b ∈ previous,
      identityKey b ∉ current.map identityKey → (endTimeOf b).isSome) :
    find_cancelled_bookings current previous now =
      some (previous.filter (cancelledPred (current.map identityKey) now)) := by
  rw [find_cancelled_bookings,
    cancelledLoop_eq_filter (current.map identityKey) now previous [] h]
  simp

theorem find_cancelled_spec_witness :
    find_cancelled_bookings [] [bookA, bookB] 0 = some [bookA] :=
  (find_cancelled_spec [] [bookA, bookB] 0 (by decide)).trans (by decide)

/-- C2: `find_new_bookings current previous` returns exactly the records
of `current` whose identity does not appear among the identities of
`previous`, in the order of `current`, with no time-based filtering; with
`previous` empty it returns all of `current`, and each occurrence of a
duplicated identity is tested independently (the filter form tests every
element of `current` on its own). -/
theorem find_new_spec (current previous : List Booking) :
    find_new_bookings current previous =
      current.filter (newPred (previous.map identityKey)) ∧
    find_new_bookings current [] = current := by
  refine ⟨find_new_eq_filter current previous, ?_⟩
  rw [find_new_eq_filter]
  simp [newPred]

/-- C3: starting from no history for `rid`, after a nonempty sequence of
`save_bookings` appends, `get_last_bookings` returns exactly the bookings
of the most recent append. -/
theorem latest_after_appends (store : Store) (rid : String)
    (reqs : List AppendReq) (h0 : store rid = none) (hne : reqs ≠ []) :
    get_last_bookings rid (applyAppends rid store reqs) =
      .ok (some (reqs.getLast hne).bookings) := by
  cases reqs with
  | nil => exact absurd rfl hne
  | cons r rest =>
    have hsave : save_bookings r.bookings rid r.timestamp r.space_id store rid
        = some [lineOf rid r] := by
      simp [save_bookings, h0, lineOf]
    have hlines : applyAppends rid store (r :: rest) rid
        = some ((r :: rest).map (lineOf rid)) := by
      rw [applyAppends, applyAppends_apply rid rest _ _ hsave]
      simp
    have hlast : ((r :: rest).map (lineOf rid)).getLast?
        = some (lineOf rid ((r :: rest).getLast hne)) := by
      rw [getLast_map_opt, List.getLast?_eq_getLast_of_ne_nil hne]
      rfl
    simp only [get_last_bookings, hlines]
    rw [hlast]
    simp [lineOf]

theorem latest_after_appends_witness :
    get_last_bookings "r1" (applyAppends "r1" emptyStore [reqOne, reqTwo]) =
      .ok (some [bookB]) :=
  (latest_after_appends emptyStore "r1" [reqOne, reqTwo] rfl (by decide)).trans rfl

/-- C4: `get_last_bookings` returns absent (`.ok none`) when the resource
has no history file, and also when the file's last line is corrupt JSON
(truncated write) or parses without a `bookings` key — it does not raise
in those cases. -/
theorem latest_absent_on_missing_or_malformed (store : Store) (rid : String) :
    (store rid = none → get_last_bookings rid store = .ok none) ∧
    (∀ lines : List Line, store rid = some lines →
      lines.getLast? = some Line.corruptJson ∨
        lines.getLast? = some Line.noBookings →
      get_last_bookings rid store = .ok none) := by
  constructor
  · intro h
    simp [get_last_bookings, h]
  · intro lines h hl
    rcases hl with hl | hl <;> simp [get_last_bookings, h, hl]

theorem latest_absent_witness :
    get_last_bookings "r1" corruptStore = .ok none ∧
    get_last_bookings "r2" corruptStore = .ok none ∧
    get_last_bookings "r3" corruptStore = .ok none :=
  ⟨(latest_absent_on_missing_or_malformed corruptStore "r1").2
      [Line.valid ⟨"t", "s", "r1", [bookA]⟩, Line.corruptJson] (by decide)
      (Or.inl (by decide)),
   (latest_absent_on_missing_or_malformed corruptStore "r2").2
      [Line.noBookings] (by decide) (Or.inr (by decide)),
   (latest_absent_on_missing_or_malformed corruptStore "r3").1 (by decide)⟩

/-- C5: if any record of `previous` whose identity is absent from
`current` lacks `attributes.to` (or `attributes` altogether), the whole
`find_cancelled_bookings` call fails — no partial classification of the
other records is returned. -/
theorem find_cancelled_fails_on_missing_to (current previous : List Booking)
    (now : Int) (b : Booking) (hb : b ∈ previous)
    (hid : identityKey b ∉ current.map identityKey)
    (hto : endTimeOf b = none) :
    find_cancelled_bookings current previous now = none := by
  rw [find_cancelled_bookings]
  exact cancelledLoop_none_of_missing (current.map identityKey) now
    previous [] b hb hid hto

theorem find_cancelled_fails_witness :
    find_cancelled_bookings [bookA] [bookA, bookNoTo, bookB] 0 = none :=
  find_cancelled_fails_on_missing_to [bookA] [bookA, bookNoTo, bookB] 0 bookNoTo
    (by decide) (by decide) rfl

/-- C6 counterexample: two distinct id-less records, one per snapshot, DO
match each other through the shared `None` key.  `idlessPrev` has no
identity, is absent from `current` under any per-record matching, and ends
at instant `100 > 0`, yet `find_cancelled_bookings` reports nothing
cancelled (the claim demands `[idlessPrev]`); symmetrically
`find_new_bookings` reports nothing new (the claim demands
`[idlessCur]`). -/
theorem idless_match_counterexample :
    identityKey idlessPrev = none ∧ identityKey idlessCur = none ∧
    idlessPrev ≠ idlessCur ∧ (0 : Int) < 100 ∧
    endTimeOf idlessPrev = some 100 ∧
    find_cancelled_bookings [idlessCur] [idlessPrev] 0 = some [] ∧
    find_new_bookings [idlessCur] [idlessPrev] = [] := by
  decide

/-- C6 (amended): identity resolves to `record.id` when that key holds a
nonempty string, else to `attributes.id`, else to `None`; id-less records
collapse onto the shared `None` key, so an id-less record in one snapshot
IS considered present in the other whenever the other snapshot also
contains an id-less record — it is then excluded from both the cancelled
and the new results. -/
theorem idless_collapse_amended :
    (∀ (bk : Booking) (s : String), bk.id = some s → s ≠ "" →
      identityKey bk = some s) ∧
    (∀ (current previous : List Booking) (now : Int) (b : Booking)
      (res : List Booking), identityKey b = none →
      (∃ c ∈ current, identityKey c = none) →
      find_cancelled_bookings current previous now = some res → b ∉ res) ∧
    (∀ (current previous : List Booking) (b : Booking),
      identityKey b = none → (∃ p ∈ previous, identityKey p = none) →
      b ∉ find_new_bookings current previous) := by
  refine ⟨?_, ?_, ?_⟩
  · intro bk s hs hne
    simp [identityKey, pyOr, pyTruthy, hs, hne]
  · rintro current previous now b res hbnone ⟨c, hc, hcnone⟩ heq hmem
    have hnone : (none : Option String) ∈ current.map identityKey :=
      List.mem_map.mpr ⟨c, hc, hcnone⟩
    rw [find_cancelled_bookings] at heq
    rcases cancelledLoop_mem (current.map identityKey) now previous [] res heq
        b hmem with habs | hout
    · exact absurd habs (List.not_mem_nil b)
    · rw [hbnone] at hout
      exact hout hnone
  · rintro current previous b hbnone ⟨p, hp, hpnone⟩ hmem
    have hnone : (none : Option String) ∈ previous.map identityKey :=
      List.mem_map.mpr ⟨p, hp, hpnone⟩
    rw [find_new_eq_filter] at hmem
    have := (List.mem_filter.mp hmem).2
    rw [newPred, hbnone] at this
    exact (of_decide_eq_true this) hnone

theorem idless_collapse_witness :
    idlessCur ∉ find_new_bookings [idlessCur] [idlessPrev] :=
  idless_collapse_amended.2.2 [idlessCur] [idlessPrev] idlessCur (by decide)
    ⟨idlessPrev, List.mem_singleton.mpr rfl, by decide⟩

/-- C7: diffing a snapshot against itself (with pairwise-distinct
identities) reports no changes: nothing cancelled and nothing new. -/
theorem diff_self_empty (X : List Booking) (now : Int)
    (h : (X.map identityKey).Nodup) :
    find_cancelled_bookings X X now = some [] ∧
    find_new_bookings X X = [] := by
  constructor
  · rw [find_cancelled_bookings]
    exact cancelledLoop_skip_all (X.map identityKey) now X []
      (fun b hb => List.mem_map_of_mem identityKey hb)
  · rw [find_new_eq_filter]
    refine List.filter_eq_nil_iff.mpr (fun b hb => ?_)
    simp [newPred, List.mem_map_of_mem identityKey hb]

theorem diff_self_empty_witness :
    find_cancelled_bookings [bookA, bookB] [bookA, bookB] 0 = some [] ∧
    find_new_bookings [bookA, bookB] [bookA, bookB] = [] :=
  diff_self_empty [bookA, bookB] 0 (by decide)

/-- C8 counterexample: `find_cancelled_bookings` is not a function of the
two snapshots alone — it also reads the clock.  The same `(current,
previous)` pair evaluated at instants `0` and `200` (a booking ending at
`100` in between) yields different results. -/
theorem cancelled_clock_dependence_counterexample :
    find_cancelled_bookings [] [bookA] 0 = some [bookA] ∧
    find_cancelled_bookings [] [bookA] 200 = some [] ∧
    find_cancelled_bookings [] [bookA] 0 ≠
      find_cancelled_bookings [] [bookA] 200 := by
  decide

/-- C8 (amended): both diff operations are pure functions of their
explicit inputs — `find_new_bookings` of the two snapshots,
`find_cancelled_bookings` of the two snapshots plus the evaluation
instant read from the clock: calls on equal inputs yield equal results,
and (by the functional embedding) neither operation mutates its arguments
or keeps state across calls. -/
theorem diff_pure_in_explicit_inputs
    (c c' p p' : List Booking) (now now' : Int)
    (hc : c = c') (hp : p = p') (hn : now = now') :
    find_cancelled_bookings c p now = find_cancelled_bookings c' p' now' ∧
    find_new_bookings c p = find_new_bookings c' p' := by
  subst hc
  subst hp
  subst hn
  exact ⟨rfl, rfl⟩

theorem diff_pure_witness :
    find_cancelled_bookings [bookA] [bookB] 5 =
      find_cancelled_bookings [bookA] [bookB] 5 ∧
    find_new_bookings [bookA] [bookB] = find_new_bookings [bookA] [bookB] :=
  diff_pure_in_explicit_inputs [bookA] [bookA] [bookB] [bookB] 5 5 rfl rfl rfl

/-- C9: a history file that exists but has zero lines makes
`get_last_bookings` raise (`NameError`: the loop variable is never
bound), unlike a file whose last line is blank, which returns absent. -/
theorem latest_empty_file_raises (store store2 : Store) (rid rid2 : String)
    (h : store rid = some []) (h2 : store2 rid2 = some [Line.blank]) :
    get_last_bookings rid store = .error PyErr.nameError ∧
    get_last_bookings rid2 store2 = .ok none := by
  constructor
  · simp [get_last_bookings, h]
  · simp [get_last_bookings, h2]

theorem latest_empty_file_raises_witness :
    get_last_bookings "r1" zeroLineStore = .error PyErr.nameError ∧
    get_last_bookings "r2" zeroLineStore = .ok none :=
  latest_empty_file_raises zeroLineStore zeroLineStore "r1" "r2"
    (by decide) (by decide)

/-- Strip the parsed `attributes.to` value from a record, leaving the
identity fields untouched. -/
def eraseEndTime (b : Booking) : Booking :=
  { b with attrs := b.attrs.map (fun a => { a with toTime := none }) }

theorem identityKey_eraseEndTime (b : Booking) :
    identityKey (eraseEndTime b) = identityKey b := by
  cases hb : b.attrs <;> simp [identityKey, eraseEndTime, hb]

/-- C10: `find_new_bookings` never reads the end-time field: erasing
every `attributes.to` value from both snapshots (so that no record has a
parseable end time) commutes with the operation, which still succeeds and
selects the same records. -/
theorem find_new_end_time_independent :
    (∀ b : Booking, endTimeOf (eraseEndTime b) = none) ∧
    (∀ current previous : List Booking,
      find_new_bookings (current.map eraseEndTime) (previous.map eraseEndTime)
        = (find_new_bookings current previous).map eraseEndTime) := by
  constructor
  · intro b
    cases hb : b.attrs <;> simp [eraseEndTime, endTimeOf, hb]
  · intro c p
    rw [find_new_eq_filter, find_new_eq_filter]
    have hids : (p.map eraseEndTime).map identityKey = p.map identityKey := by
      rw [List.map_map]
      exact List.map_congr_left (fun b _ => identityKey_eraseEndTime b)
    rw [hids, List.filter_map]
    have hpred : (newPred (p.map identityKey)) ∘ eraseEndTime
        = newPred (p.map identityKey) := by
      funext b
      simp [newPred, identityKey_eraseEndTime]
    rw [hpred]

end Cobot
